import Mathlib

/-!
# Verification of the Match Concurrency Core

A shallow embedding of the match concurrency core of the olympiad platform
(`backend/app/services/{elo,matching,match_logic}.py`,
`backend/app/websocket/pvp.py`, `backend/app/models/match.py`) together with
proofs of the specified properties.

Modelling conventions:
* The relational store (tables `users`, `matches`, `tasks`, `match_tasks`,
  `match_answers`) is a record of lists of rows (`DB`); each service function
  becomes a pure function from a `DB` to a result paired with the updated
  `DB`, with Python `raise` modelled by `Except String`.
* `datetime.utcnow()` is modelled by an explicit `now : Int` parameter;
  timestamps are integers.
* Python float arithmetic in the ELO calculator is modelled by real
  arithmetic; Python `round` (round half to even) is modelled by
  `roundHalfEven`.
* Python `str.strip().lower()` is modelled by `String.trim` and
  `String.toLower` (ASCII case folding; the comparison claims only concern
  equality of the two normalised strings).
* `ORDER BY random()` in the task selector and the autoincremented primary
  keys are nondeterministic / engine-supplied; they appear as explicit
  parameters (`pickTasks`) or are computed from the store (`freshMatchId`).
-/

/-- `MatchStatus` enum from `app/models/enums.py`:
waiting, active, finished, cancelled, error. -/
inductive MatchStatus where
  | waiting
  | active
  | finished
  | cancelled
  | error
deriving DecidableEq, Repr

/-- Row of the `users` table (the columns the core reads/writes). -/
structure UserRec where
  id : Int
  rating : Int
deriving DecidableEq, Repr

/-- Row of the `tasks` table (the columns the core reads): the canonical
answer string. -/
structure TaskRec where
  id : Int
  answer : String
deriving DecidableEq, Repr

/-- Row of the `matches` table (`app/models/match.py`, class `Match`).
`player2_id` is nullable at the service level (`matching.py` creates
WAITING matches with `player2_id=None`). -/
structure MatchRec where
  id : Int
  player1_id : Int
  player2_id : Option Int
  status : MatchStatus
  player1_score : Int
  player2_score : Int
  winner_id : Option Int
  player1_rating_change : Option Int
  player2_rating_change : Option Int
  created_at : Int
  finished_at : Option Int
deriving DecidableEq, Repr

/-- Row of the `match_tasks` table (`app/models/match.py`, class `MatchTask`). -/
structure MatchTaskRec where
  match_id : Int
  task_id : Int
  task_order : Int
deriving DecidableEq, Repr

/-- Row of the `match_answers` table (`app/models/match.py`, class
`MatchAnswer`). -/
structure MatchAnswerRec where
  match_id : Int
  user_id : Int
  task_id : Int
  answer : String
  is_correct : Bool
  submitted_at : Int
deriving DecidableEq, Repr

/-- The relational store: one list of rows per table (the
`matches` table appears as `matchRows`: `matches` is a reserved token in
Lean). -/
structure DB where
  users : List UserRec
  tasks : List TaskRec
  matchRows : List MatchRec
  matchTasks : List MatchTaskRec
  matchAnswers : List MatchAnswerRec
deriving DecidableEq, Repr

/-- `SELECT ... FROM matches WHERE id = mid` (primary-key lookup; the id
column is unique, so the first hit is the row). -/
def DB.findMatch (db : DB) (mid : Int) : Option MatchRec :=
  db.matchRows.find? (fun m => m.id == mid)

/-- `SELECT ... FROM tasks WHERE id = tid` (primary-key lookup). -/
def DB.findTask (db : DB) (tid : Int) : Option TaskRec :=
  db.tasks.find? (fun t => t.id == tid)

/-- `SELECT ... FROM users WHERE id = uid` (primary-key lookup). -/
def DB.findUser (db : DB) (uid : Int) : Option UserRec :=
  db.users.find? (fun u => u.id == uid)

/-- The upsert key of `match_answers`: the unique index
`(match_id, user_id, task_id)` (`ix_match_answers_match_user_task`). -/
def answerKey (mid uid tid : Int) (a : MatchAnswerRec) : Bool :=
  a.match_id == mid && a.user_id == uid && a.task_id == tid

/-- Python `s.strip().lower()` from `process_answer` (ASCII model). -/
def pyNormalize (s : String) : String :=
  s.trim.toLower

/-- A row of `match_answers` updated by the UPSERT branch of
`process_answer` (lines 84-92 of `match_logic.py`): `answer`, `is_correct`
and `submitted_at` are overwritten, the key columns are kept. -/
def updateAnswerRow (answer : String) (isCorrect : Bool) (now : Int)
    (a : MatchAnswerRec) : MatchAnswerRec :=
  { a with answer := answer, is_correct := isCorrect, submitted_at := now }

/-- Step 5 of `process_answer`:
`SELECT COUNT(*) FROM match_answers WHERE match_id=? AND user_id=? AND is_correct`. -/
def correctCount (mid uid : Int) (answers : List MatchAnswerRec) : Int :=
  ((answers.filter
    (fun a => a.match_id == mid && a.user_id == uid && a.is_correct)).length : Int)

/-- `process_answer(match_id, user_id, task_id, answer, session)` from
`app/services/match_logic.py` (lines 19-129).

1. row-lock the match, error if absent;
2. load the task, error if absent;
3. `is_correct := answer.strip().lower() == task.answer.strip().lower()`;
4. UPSERT the `MatchAnswer` row keyed by `(match_id, user_id, task_id)`
   (the SELECT uses `scalar_one_or_none`, which raises when the unique
   index is violated and more than one row matches — the `_ :: _ :: _`
   branch);
5. recount the player's correct answers;
6. write the count to `player1_score` / `player2_score` depending on which
   participant submitted, error if the user is neither.

Returns `(is_correct, new_score)` and the updated store. -/
def process_answer (mid uid tid : Int) (answer : String) (now : Int)
    (db : DB) : Except String ((Bool × Int) × DB) :=
  match db.findMatch mid with
  | none => .error "Match not found"
  | some m =>
    match db.findTask tid with
    | none => .error "Task not found"
    | some task =>
      let isCorrect := pyNormalize answer == pyNormalize task.answer
      match db.matchAnswers.filter (answerKey mid uid tid) with
      | _ :: _ :: _ => .error "Multiple rows found"
      | existing =>
        let answers' :=
          match existing with
          | [] =>
            db.matchAnswers ++
              [{ match_id := mid, user_id := uid, task_id := tid,
                 answer := answer, is_correct := isCorrect,
                 submitted_at := now }]
          | _ =>
            db.matchAnswers.map (fun a =>
              if answerKey mid uid tid a then
                updateAnswerRow answer isCorrect now a
              else a)
        let newScore := correctCount mid uid answers'
        if uid == m.player1_id then
          .ok ((isCorrect, newScore),
            { db with
              matchAnswers := answers',
              matchRows := db.matchRows.map (fun x =>
                if x.id == mid then { x with player1_score := newScore } else x) })
        else if m.player2_id == some uid then
          .ok ((isCorrect, newScore),
            { db with
              matchAnswers := answers',
              matchRows := db.matchRows.map (fun x =>
                if x.id == mid then { x with player2_score := newScore } else x) })
        else
          .error "User is not a participant"

/-- `check_match_completion(match_id, session)` from
`app/services/match_logic.py` (lines 132-210): false if the match row is
absent; false if the match has zero `MatchTask` rows; otherwise true iff
each player's count of `MatchAnswer` rows in this match is at least the
count of `MatchTask` rows.  (`MatchAnswer.user_id == match.player2_id`
matches no row when `player2_id` is NULL.) -/
def check_match_completion (mid : Int) (db : DB) : Bool :=
  match db.findMatch mid with
  | none => false
  | some m =>
    let totalTasks := (db.matchTasks.filter (fun t => t.match_id == mid)).length
    if totalTasks == 0 then false
    else
      let p1 := (db.matchAnswers.filter
        (fun a => a.match_id == mid && a.user_id == m.player1_id)).length
      let p2 := (db.matchAnswers.filter
        (fun a => a.match_id == mid && m.player2_id == some a.user_id)).length
      decide (totalTasks ≤ p1) && decide (totalTasks ≤ p2)

/-- The type of `calculate_match_rating_changes(p1_rating, p2_rating,
winner_id, p1_id, p2_id)`.  The finalizer takes the ELO computation as a
parameter: the source calls the float-valued function in
`app/services/elo.py`, which is modelled separately over the reals
(`calculate_match_rating_changes` below); every property proved of the
finalizer holds for an arbitrary rating-change function. -/
abbrev RatingChangesFn := Int → Int → Option Int → Int → Int → Except String (Int × Int)

/-- `apply_rating_bounds` from `app/services/elo.py` (lines 172-186):
`max(rating, MIN_RATING)` with `MIN_RATING = 100`. -/
def apply_rating_bounds (rating : Int) : Int :=
  max rating 100

/-- The dictionary returned by `finalize_match` (the `match_end` payload). -/
structure FinalizeResult where
  winner_id : Option Int
  player1_rating_change : Int
  player1_new_rating : Int
  player2_rating_change : Int
  player2_new_rating : Int
  player1_score : Int
  player2_score : Int
deriving DecidableEq, Repr

/-- Update the single `matches` row with id `mid` (the row-locked ORM
mutation). -/
def updateMatchRow (db : DB) (mid : Int) (f : MatchRec → MatchRec) : DB :=
  { db with matchRows := db.matchRows.map (fun x => if x.id == mid then f x else x) }

/-- The non-`technical_error` tail of `finalize_match` (lines 368-412 of
`match_logic.py`): write the terminal columns (`status = FINISHED`,
`winner_id`, both rating-change columns, `finished_at = now`), then apply
the deltas to both users' ratings through `apply_rating_bounds`, and build
the result dictionary. -/
def finalizeFinish (mid : Int) (p1id p2id : Int) (w : Option Int)
    (c1 c2 : Int) (now : Int) (m : MatchRec) (u1 u2 : UserRec) (db : DB) :
    FinalizeResult × DB :=
  let db1 := updateMatchRow db mid (fun x =>
    { x with status := .finished, winner_id := w,
             player1_rating_change := some c1,
             player2_rating_change := some c2,
             finished_at := some now })
  let new1 := apply_rating_bounds (u1.rating + c1)
  let new2 := apply_rating_bounds (u2.rating + c2)
  let db2 := { db1 with users := db1.users.map (fun u =>
    if u.id == p1id then { u with rating := new1 }
    else if u.id == p2id then { u with rating := new2 }
    else u) }
  ({ winner_id := w,
     player1_rating_change := c1, player1_new_rating := new1,
     player2_rating_change := c2, player2_new_rating := new2,
     player1_score := m.player1_score, player2_score := m.player2_score },
   db2)

/-- `finalize_match(match_id, session, reason, winner_id)` from
`app/services/match_logic.py` (lines 213-426).

* match row absent → error;
* status FINISHED → return the cached outcome rebuilt from the stored
  columns (`x or 0` on the nullable rating-change columns; the new-rating
  fields are reported as 0 because the users are not loaded) with no
  change to the store;
* status ERROR → error (`"is in ERROR state, cannot finalize"`);
* any other non-ACTIVE status → error;
* reason `technical_error`: winner `None`, both deltas 0, status ERROR;
  `finished_at` is **not** written (the source guards it with
  `if reason != "technical_error"`), and the user ratings are not touched;
* reason `forfeit`: requires `winner_id`, loads both users (NULL
  `player2_id` makes `scalar_one()` raise), computes the deltas, then the
  FINISHED tail;
* any other reason (`completion`): loads both users, winner = argmax of
  the stored scores (`None` on a tie), computes the deltas, then the
  FINISHED tail. -/
def finalize_match (rc : RatingChangesFn) (mid : Int) (reason : String)
    (winner_id : Option Int) (now : Int) (db : DB) :
    Except String (FinalizeResult × DB) :=
  match db.findMatch mid with
  | none => .error "Match not found"
  | some m =>
    if m.status == .finished then
      .ok ({ winner_id := m.winner_id,
             player1_rating_change := m.player1_rating_change.getD 0,
             player1_new_rating := 0,
             player2_rating_change := m.player2_rating_change.getD 0,
             player2_new_rating := 0,
             player1_score := m.player1_score,
             player2_score := m.player2_score }, db)
    else if m.status == .error then
      .error "Match is in ERROR state, cannot finalize"
    else if !(m.status == .active) then
      .error "Match cannot be finalized in this state"
    else if reason == "technical_error" then
      let db1 := updateMatchRow db mid (fun x =>
        { x with status := .error, winner_id := none,
                 player1_rating_change := some 0,
                 player2_rating_change := some 0 })
      .ok ({ winner_id := none,
             player1_rating_change := 0, player1_new_rating := 0,
             player2_rating_change := 0, player2_new_rating := 0,
             player1_score := m.player1_score,
             player2_score := m.player2_score }, db1)
    else if reason == "forfeit" then
      match winner_id with
      | none => .error "For forfeit reason, winner_id must be specified"
      | some w =>
        match m.player2_id with
        | none => .error "No row was found"
        | some p2id =>
          match db.findUser m.player1_id, db.findUser p2id with
          | some u1, some u2 =>
            match rc u1.rating u2.rating (some w) m.player1_id p2id with
            | .error e => .error e
            | .ok (c1, c2) =>
              .ok (finalizeFinish mid m.player1_id p2id (some w) c1 c2 now m u1 u2 db)
          | _, _ => .error "No row was found"
    else
      match m.player2_id with
      | none => .error "No row was found"
      | some p2id =>
        match db.findUser m.player1_id, db.findUser p2id with
        | some u1, some u2 =>
          let w : Option Int :=
            if m.player1_score > m.player2_score then some m.player1_id
            else if m.player2_score > m.player1_score then some p2id
            else none
          match rc u1.rating u2.rating w m.player1_id p2id with
          | .error e => .error e
          | .ok (c1, c2) =>
            .ok (finalizeFinish mid m.player1_id p2id w c1 c2 now m u1 u2 db)
        | _, _ => .error "No row was found"

/-- `finalize_match_forfeit(match_id, user_id_disconnected, session)` from
`app/services/match_logic.py` (lines 429-484): the winner is the other
participant; delegates to `finalize_match` with reason `forfeit`. -/
def finalize_match_forfeit (rc : RatingChangesFn) (mid udisc : Int)
    (now : Int) (db : DB) : Except String (FinalizeResult × DB) :=
  match db.findMatch mid with
  | none => .error "Match not found"
  | some m =>
    if udisc == m.player1_id then
      finalize_match rc mid "forfeit" m.player2_id now db
    else if m.player2_id == some udisc then
      finalize_match rc mid "forfeit" (some m.player1_id) now db
    else
      .error "User is not a participant"

/-- `handle_technical_error(match_id, session, error_message)` from
`app/services/match_logic.py` (lines 487-515): delegate to
`finalize_match` with reason `technical_error` (no `winner_id`). -/
def handle_technical_error (rc : RatingChangesFn) (mid : Int) (now : Int)
    (db : DB) : Except String DB :=
  (finalize_match rc mid "technical_error" none now db).map (·.2)

/-- The body of `disconnect_timeout_callback` from
`app/websocket/pvp.py` (lines 791-833), the `on_expire` callback armed by
`manager.start_disconnect_timer` when one player disconnects while the
opponent is still connected: it runs `handle_technical_error` on the match
and commits; any exception is caught and logged, leaving the store as it
was (the session is never committed on that path).  Timer scheduling,
reconnect cancellation and event emission are runtime concerns outside
the store model. -/
def disconnect_timeout_callback (rc : RatingChangesFn) (mid : Int)
    (now : Int) (db : DB) : DB :=
  match handle_technical_error rc mid now db with
  | .ok db' => db'
  | .error _ => db

/-- The guard predicate of step 1 of `find_or_create_match`
(`app/services/matching.py`, lines 73-93): any match of this user with
status in {WAITING, ACTIVE}. -/
def guardPred (uid : Int) (m : MatchRec) : Bool :=
  (m.player1_id == uid || m.player2_id == some uid) &&
    (m.status == .waiting || m.status == .active)

/-- The candidate predicate of step 2 of `find_or_create_match`
(`matching.py`, lines 113-132): a WAITING match of another creator with no
second player whose creator's rating (inner join on `users`) lies within
`±RATING_RANGE = ±200` of the caller's rating. -/
def candPred (uid rating : Int) (users : List UserRec) (m : MatchRec) : Bool :=
  m.status == .waiting && !(m.player1_id == uid) && m.player2_id == none &&
    (match users.find? (fun u => u.id == m.player1_id) with
     | some creator =>
        rating - 200 ≤ creator.rating && creator.rating ≤ rating + 200
     | none => false)

/-- One step of the `ORDER BY created_at ASC LIMIT 1` fold: keep the row
with the smaller `created_at` (the earlier list entry on ties). -/
def earliestStep (acc : Option MatchRec) (m : MatchRec) : Option MatchRec :=
  match acc with
  | none => some m
  | some b => if m.created_at < b.created_at then some m else some b

/-- `ORDER BY created_at ASC LIMIT 1`: the first row with minimal
`created_at` (FIFO). -/
def earliestMatch (l : List MatchRec) : Option MatchRec :=
  l.foldl earliestStep none

/-- Fresh autoincremented primary key for a new `matches` row (the model of
the id the engine assigns at `flush`). -/
def freshMatchId (db : DB) : Int :=
  1 + (db.matchRows.map MatchRec.id).foldl max 0

/-- Steps 2-3 of `find_or_create_match` (`matching.py`, lines 110-187),
after the ACTIVE guard has been passed; `ex` is the user's own WAITING
match when the guard found one.

* If a candidate WAITING match is found (earliest first): delete the
  user's own WAITING match if any, set `player2_id` and `status = ACTIVE`
  on the candidate, insert the `MatchTask` rows chosen by
  `select_match_tasks` (the random selection appears as the `pickTasks`
  parameter), and return the joined match.
* Otherwise return the existing WAITING match unchanged if there is one,
  else insert a fresh WAITING match for this user and return it. -/
def find_or_create_step2 (pickTasks : Int → List MatchTaskRec)
    (uid rating now : Int) (ex : Option MatchRec) (db : DB) : MatchRec × DB :=
  match earliestMatch (db.matchRows.filter (candPred uid rating db.users)) with
  | some wm =>
    let afterDelete : List MatchRec :=
      match ex with
      | some e => db.matchRows.filter (fun x => !(x.id == e.id))
      | none => db.matchRows
    let wm' := { wm with player2_id := some uid, status := .active }
    (wm',
     { db with
       matchRows := afterDelete.map (fun x => if x.id == wm.id then wm' else x),
       matchTasks := db.matchTasks ++ pickTasks wm.id })
  | none =>
    match ex with
    | some e => (e, db)
    | none =>
      let nm : MatchRec :=
        { id := freshMatchId db, player1_id := uid, player2_id := none,
          status := .waiting, player1_score := 0, player2_score := 0,
          winner_id := none, player1_rating_change := none,
          player2_rating_change := none, created_at := now,
          finished_at := none }
      (nm, { db with matchRows := db.matchRows ++ [nm] })

/-- `find_or_create_match(user_id, user_rating, session)` from
`app/services/matching.py` (lines 39-187).

Step 1 (guard): the first match of this user with status WAITING or
ACTIVE.  If it is ACTIVE it is returned unchanged (polling after pairing);
if it is WAITING the search continues with it as `ex`; the remaining steps
are `find_or_create_step2`. -/
def find_or_create_match (pickTasks : Int → List MatchTaskRec)
    (uid rating now : Int) (db : DB) : MatchRec × DB :=
  match db.matchRows.find? (guardPred uid) with
  | some m =>
    if m.status == .active then (m, db)
    else find_or_create_step2 pickTasks uid rating now (some m) db
  | none => find_or_create_step2 pickTasks uid rating now none db

/-- `cancel_waiting_match(user_id, session)` from `app/services/matching.py`
(lines 254-311): row-lock the user's own WAITING match with no opponent;
if present delete it and return its id, else return `none`. -/
def cancel_waiting_match (uid : Int) (db : DB) : Option Int × DB :=
  match db.matchRows.find? (fun m =>
      m.player1_id == uid && m.player2_id == none && m.status == .waiting) with
  | none => (none, db)
  | some m =>
    (some m.id, { db with matchRows := db.matchRows.filter (fun x => !(x.id == m.id)) })

/-- `K_FACTOR = 32` from `app/services/elo.py`. -/
def K_FACTOR : Int := 32

/-- Python 3 `round` (round half to even), used by
`calculate_rating_change` for the delta; float arithmetic is modelled over
the reals. -/
noncomputable def roundHalfEven (x : ℝ) : ℤ :=
  if Int.fract x = 1 / 2 then (if Even ⌊x⌋ then ⌊x⌋ else ⌊x⌋ + 1)
  else round x

/-- `calculate_expected_score(rating_a, rating_b)` from
`app/services/elo.py` (lines 29-59): `E_a = 1 / (1 + 10^((R_b-R_a)/400))`,
with the exponent clamped — above 10 the result is 0.001, below -10 it is
0.999. -/
noncomputable def calculate_expected_score (ratingA ratingB : Int) : ℝ :=
  if ((ratingB : ℝ) - (ratingA : ℝ)) / 400 > 10 then 0.001
  else if ((ratingB : ℝ) - (ratingA : ℝ)) / 400 < -10 then 0.999
  else 1 / (1 + (10 : ℝ) ^ (((ratingB : ℝ) - (ratingA : ℝ)) / 400))

/-- `calculate_rating_change(player_rating, opponent_rating, outcome,
k_factor)` from `app/services/elo.py` (lines 62-98): rejects an outcome
outside `[0, 1]`, otherwise `round(K * (outcome - expected))`. -/
noncomputable def calculate_rating_change (playerRating opponentRating : Int)
    (outcome : ℝ) (kFactor : Int) : Except String ℤ :=
  if 0 ≤ outcome ∧ outcome ≤ 1 then
    .ok (roundHalfEven ((kFactor : ℝ) *
      (outcome - calculate_expected_score playerRating opponentRating)))
  else
    .error "Outcome must be between 0.0 and 1.0"

/-- The outcome pair of `calculate_match_rating_changes` (lines 125-138 of
`elo.py`): 0.5/0.5 on a draw (`winner_id` None), 1/0 when player 1 wins,
0/1 when player 2 wins, error when the winner is neither participant. -/
noncomputable def matchOutcomes (winnerId : Option Int) (p1Id p2Id : Int) :
    Except String (ℝ × ℝ) :=
  match winnerId with
  | none => .ok (0.5, 0.5)
  | some w =>
    if w = p1Id then .ok (1, 0)
    else if w = p2Id then .ok (0, 1)
    else .error "winner_id is neither player 1 nor player 2"

/-- `calculate_match_rating_changes(p1_rating, p2_rating, winner_id, p1_id,
p2_id)` from `app/services/elo.py` (lines 101-146), continued: each
player's delta comes from `calculate_rating_change` with `K_FACTOR`. -/
noncomputable def calculate_match_rating_changes (p1Rating p2Rating : Int)
    (winnerId : Option Int) (p1Id p2Id : Int) : Except String (ℤ × ℤ) :=
  match matchOutcomes winnerId p1Id p2Id with
  | .error e => .error e
  | .ok (o1, o2) =>
    match calculate_rating_change p1Rating p2Rating o1 K_FACTOR with
    | .error e => .error e
    | .ok c1 =>
      match calculate_rating_change p2Rating p1Rating o2 K_FACTOR with
      | .error e => .error e
      | .ok c2 => .ok (c1, c2)

/-- Statement wrapper: the rating-change computation succeeded and the two
deltas sum to at most 1 in absolute value (the approximate zero-sum law). -/
def zeroSumOk : Except String (ℤ × ℤ) → Prop
  | .ok (d1, d2) => |d1 + d2| ≤ 1
  | .error _ => False

/-- Statement wrapper: the rating-change computation succeeded with a delta
of at least 16. -/
def okAndGE16 : Except String ℤ → Prop
  | .ok d => 16 ≤ d
  | .error _ => False

/-- Modelled from the spec (§4.5): the completion predicate as written —
"both participants have at least one `MatchAnswer` per task in
`MatchTask`" — for comparison with the source's count-based
`check_match_completion`. -/
def specBothAnsweredEveryTask (mid : Int) (m : MatchRec) (db : DB) : Bool :=
  (db.matchTasks.filter (fun t => t.match_id == mid)).all (fun mt =>
    (db.matchAnswers.any (fun a =>
      a.match_id == mid && a.user_id == m.player1_id && a.task_id == mt.task_id)) &&
    (db.matchAnswers.any (fun a =>
      a.match_id == mid && m.player2_id == some a.user_id && a.task_id == mt.task_id)))

/-- The `match_answers` unique-index invariant: no two rows share the
`(match_id, user_id, task_id)` key. -/
def answerKeysNodup (db : DB) : Prop :=
  (db.matchAnswers.map (fun a => (a.match_id, a.user_id, a.task_id))).Nodup

/-- A concrete rating-change function for witnesses (the finalizer theorems
hold for every `RatingChangesFn`). -/
def rcZero : RatingChangesFn := fun _ _ _ _ _ => .ok (0, 0)

/-- Sample ACTIVE match between users 1 and 2. -/
def mActive : MatchRec :=
  { id := 1, player1_id := 1, player2_id := some 2, status := .active,
    player1_score := 0, player2_score := 0, winner_id := none,
    player1_rating_change := none, player2_rating_change := none,
    created_at := 0, finished_at := none }

/-- Sample store with one ACTIVE match, one task and no answers. -/
def dbActive : DB :=
  { users := [{ id := 1, rating := 1000 }, { id := 2, rating := 1100 }],
    tasks := [{ id := 10, answer := "42" }],
    matchRows := [mActive],
    matchTasks := [{ match_id := 1, task_id := 10, task_order := 1 }],
    matchAnswers := [] }

/-- Sample FINISHED match (terminal columns stored). -/
def mFinished : MatchRec :=
  { id := 1, player1_id := 1, player2_id := some 2, status := .finished,
    player1_score := 3, player2_score := 2, winner_id := some 1,
    player1_rating_change := some 16, player2_rating_change := some (-16),
    created_at := 0, finished_at := some 7 }

/-- Sample store whose only match is already FINISHED. -/
def dbFinished : DB :=
  { users := [{ id := 1, rating := 1016 }, { id := 2, rating := 1084 }],
    tasks := [], matchRows := [mFinished], matchTasks := [], matchAnswers := [] }

/-- Sample match already in the ERROR status. -/
def mErrorState : MatchRec :=
  { id := 1, player1_id := 1, player2_id := some 2, status := .error,
    player1_score := 0, player2_score := 0, winner_id := none,
    player1_rating_change := some 0, player2_rating_change := some 0,
    created_at := 0, finished_at := none }

/-- Sample store whose only match is in the ERROR status. -/
def dbErrorState : DB :=
  { users := [{ id := 1, rating := 1000 }, { id := 2, rating := 1100 }],
    tasks := [], matchRows := [mErrorState], matchTasks := [], matchAnswers := [] }

/-- Sample WAITING match owned by user 1 (no opponent yet). -/
def mWaiting : MatchRec :=
  { id := 1, player1_id := 1, player2_id := none, status := .waiting,
    player1_score := 0, player2_score := 0, winner_id := none,
    player1_rating_change := none, player2_rating_change := none,
    created_at := 0, finished_at := none }

/-- Sample store with a single user and no matches (matchmaker witness). -/
def dbNoMatches : DB :=
  { users := [{ id := 1, rating := 1000 }],
    tasks := [], matchRows := [], matchTasks := [], matchAnswers := [] }

/-- Sample ACTIVE match between users 1 and 2 with no `MatchTask` rows
(the zero-task edge case of the completion predicate). -/
def dbNoTasks : DB :=
  { users := [{ id := 1, rating := 1000 }, { id := 2, rating := 1100 }],
    tasks := [], matchRows := [mActive], matchTasks := [], matchAnswers := [] }

/-- Sample store where both players answered the single task of match 1. -/
def dbBothAnswered : DB :=
  { users := [{ id := 1, rating := 1000 }, { id := 2, rating := 1100 }],
    tasks := [{ id := 10, answer := "42" }],
    matchRows := [mActive],
    matchTasks := [{ match_id := 1, task_id := 10, task_order := 1 }],
    matchAnswers :=
      [{ match_id := 1, user_id := 1, task_id := 10, answer := "42",
         is_correct := true, submitted_at := 3 },
       { match_id := 1, user_id := 2, task_id := 10, answer := "41",
         is_correct := false, submitted_at := 4 }] }

/-- Store after finalizing `dbActive` with reason `completion` at time 9
under `rcZero` (scores 0-0: a draw). -/
def dbAfterC2 : DB :=
  { users := [{ id := 1, rating := 1000 }, { id := 2, rating := 1100 }],
    tasks := [{ id := 10, answer := "42" }],
    matchRows := [{ mActive with
                    status := .finished, winner_id := none,
                    player1_rating_change := some 0,
                    player2_rating_change := some 0,
                    finished_at := some 9 }],
    matchTasks := [{ match_id := 1, task_id := 10, task_order := 1 }],
    matchAnswers := [] }

/-- Result dictionary of the completion run of the C2 witness. -/
def resC2 : FinalizeResult :=
  { winner_id := none, player1_rating_change := 0, player1_new_rating := 1000,
    player2_rating_change := 0, player2_new_rating := 1100,
    player1_score := 0, player2_score := 0 }

/-- Result dictionary of a technical-error run on `dbActive`. -/
def resTechErr : FinalizeResult :=
  { winner_id := none, player1_rating_change := 0, player1_new_rating := 0,
    player2_rating_change := 0, player2_new_rating := 0,
    player1_score := 0, player2_score := 0 }

/-- Match row after a technical-error run on `dbActive`. -/
def mAfterTechErr : MatchRec :=
  { mActive with
    status := .error, winner_id := none,
    player1_rating_change := some 0, player2_rating_change := some 0 }

/-- Store after a technical-error run on `dbActive`. -/
def dbAfterTechErr : DB :=
  { dbActive with matchRows := [mAfterTechErr] }

/-- Store after user 1 creates a WAITING match in `dbNoMatches`. -/
def dbAfterWait : DB :=
  { users := [{ id := 1, rating := 1000 }],
    tasks := [], matchRows := [mWaiting], matchTasks := [], matchAnswers := [] }

theorem find?_map_ite (l : List MatchRec) (mid : Int) (f : MatchRec → MatchRec)
    (hf : ∀ x, (f x).id = x.id) :
    (l.map (fun x => if x.id == mid then f x else x)).find? (fun m => m.id == mid)
      = (l.find? (fun m => m.id == mid)).map f := by
  induction l with
  | nil => rfl
  | cons a t ih =>
    by_cases h : a.id = mid
    · have hb : (a.id == mid) = true := by simpa using h
      have hstep : (if (a.id == mid) = true then f a else a) = f a := if_pos hb
      have hfa : ((f a).id == mid) = true := by rw [hf a]; exact hb
      rw [List.map_cons, hstep]
      simp only [List.find?_cons, hfa, hb]
      rfl
    · have hb : (a.id == mid) = false := by simpa using h
      have hstep : (if (a.id == mid) = true then f a else a) = a := if_neg (by simp [hb])
      rw [List.map_cons, hstep]
      simp only [List.find?_cons, hb]
      exact ih

theorem findMatch_updateMatchRow (db : DB) (mid : Int) (f : MatchRec → MatchRec)
    (hf : ∀ x, (f x).id = x.id) :
    (updateMatchRow db mid f).findMatch mid = (db.findMatch mid).map f :=
  find?_map_ite db.matchRows mid f hf

/-- **C1** (corrected).  The finalizer is status-gated, and idempotent for
FINISHED only: when the match is already FINISHED it returns the outcome
rebuilt from the stored columns and leaves the store untouched; when the
match is already in ERROR it fails (it does **not** return a cached
outcome); when the status is neither ACTIVE nor terminal (WAITING or
CANCELLED) it fails with an invalid-state error. -/
theorem finalize_status_gate (rc : RatingChangesFn) (mid : Int) (reason : String)
    (w : Option Int) (now : Int) (db : DB) (m : MatchRec)
    (hm : db.findMatch mid = some m) :
    (m.status = .finished → finalize_match rc mid reason w now db =
        .ok ({ winner_id := m.winner_id,
               player1_rating_change := m.player1_rating_change.getD 0,
               player1_new_rating := 0,
               player2_rating_change := m.player2_rating_change.getD 0,
               player2_new_rating := 0,
               player1_score := m.player1_score,
               player2_score := m.player2_score }, db)) ∧
    (m.status = .error → finalize_match rc mid reason w now db =
        .error "Match is in ERROR state, cannot finalize") ∧
    ((m.status = .waiting ∨ m.status = .cancelled) →
      finalize_match rc mid reason w now db =
        .error "Match cannot be finalized in this state") := by
  refine ⟨?_, ?_, ?_⟩ <;> intro hs
  · simp [finalize_match, hm, hs]
  · simp [finalize_match, hm, hs]
  · rcases hs with hs | hs <;> simp [finalize_match, hm, hs]

/-- Witness for C1: concrete FINISHED store — the cached outcome comes back
and the store is unchanged. -/
theorem finalize_status_gate_witness :
    finalize_match rcZero 1 "completion" none 9 dbFinished =
      .ok ({ winner_id := some 1, player1_rating_change := 16,
             player1_new_rating := 0, player2_rating_change := -16,
             player2_new_rating := 0, player1_score := 3, player2_score := 2 },
           dbFinished) :=
  (finalize_status_gate rcZero 1 "completion" none 9 dbFinished mFinished rfl).1 rfl

/-- Counterexample for C1 as stated: a match already in ERROR status makes
`finalize_match` fail rather than return the cached outcome. -/
theorem finalize_error_status_not_cached :
    dbErrorState.findMatch 1 = some mErrorState ∧
    mErrorState.status = .error ∧
    finalize_match rcZero 1 "completion" none 9 dbErrorState =
      .error "Match is in ERROR state, cannot finalize" :=
  ⟨rfl, rfl, rfl⟩

theorem findMatch_finalizeFinish (mid p1 p2 : Int) (w : Option Int)
    (c1 c2 now : Int) (m : MatchRec) (u1 u2 : UserRec) (db : DB) :
    ((finalizeFinish mid p1 p2 w c1 c2 now m u1 u2 db).2).findMatch mid =
      (db.findMatch mid).map (fun x =>
        { x with status := .finished, winner_id := w,
                 player1_rating_change := some c1,
                 player2_rating_change := some c2,
                 finished_at := some now }) :=
  findMatch_updateMatchRow db mid _ (fun _ => rfl)

theorem findMatch_techErrUpdate (db : DB) (mid : Int) :
    (updateMatchRow db mid (fun x =>
      { x with status := .error, winner_id := none,
               player1_rating_change := some 0,
               player2_rating_change := some 0 })).findMatch mid
      = (db.findMatch mid).map (fun x =>
      { x with status := .error, winner_id := none,
               player1_rating_change := some 0,
               player2_rating_change := some 0 }) :=
  findMatch_updateMatchRow db mid _ (fun _ => rfl)

/-- **C2** (amended).  A transition out of ACTIVE performed by
`finalize_match` ends in FINISHED or ERROR; the transition to FINISHED
sets `finished_at` to the current time and sets both rating-change
columns; the transition to ERROR sets both rating-change columns (to 0)
but leaves `finished_at` untouched — so a match that reached ERROR has a
NULL `finished_at` (the claim's "transition to ERROR sets finished_at" is
what fails). -/
theorem finalize_terminal_columns (rc : RatingChangesFn) (mid : Int)
    (reason : String) (w : Option Int) (now : Int) (db : DB)
    (m : MatchRec) (res : FinalizeResult) (db2 : DB)
    (hm : db.findMatch mid = some m) (ha : m.status = .active)
    (h : finalize_match rc mid reason w now db = .ok (res, db2)) :
    ∃ m2, db2.findMatch mid = some m2 ∧
      (m2.status = .finished ∨ m2.status = .error) ∧
      (m2.status = .finished →
        m2.finished_at = some now ∧
        m2.player1_rating_change.isSome ∧ m2.player2_rating_change.isSome) ∧
      (m2.status = .error →
        m2.finished_at = m.finished_at ∧
        m2.player1_rating_change = some 0 ∧ m2.player2_rating_change = some 0) := by
  simp [finalize_match, hm, ha] at h
  split at h
  · -- technical_error branch
    rw [Except.ok.injEq, Prod.mk.injEq] at h
    obtain ⟨-, hdb⟩ := h
    subst hdb
    rw [findMatch_techErrUpdate, hm]
    exact ⟨_, rfl, Or.inr rfl, fun hc => absurd hc (by simp), fun _ => ⟨rfl, rfl, rfl⟩⟩
  · split at h
    · -- forfeit branch
      split at h
      · exact absurd h (by simp)
      · split at h
        · exact absurd h (by simp)
        · split at h
          · split at h
            · exact absurd h (by simp)
            · rw [Except.ok.injEq] at h
              have hdb : _ = db2 := congrArg Prod.snd h
              rw [← hdb, findMatch_finalizeFinish, hm]
              exact ⟨_, rfl, Or.inl rfl, fun _ => ⟨rfl, rfl, rfl⟩,
                fun hc => absurd hc (by simp)⟩
          · exact absurd h (by simp)
    · -- completion branch
      split at h
      · exact absurd h (by simp)
      · split at h
        · split at h
          · exact absurd h (by simp)
          · rw [Except.ok.injEq] at h
            have hdb : _ = db2 := congrArg Prod.snd h
            rw [← hdb, findMatch_finalizeFinish, hm]
            exact ⟨_, rfl, Or.inl rfl, fun _ => ⟨rfl, rfl, rfl⟩,
              fun hc => absurd hc (by simp)⟩
        · exact absurd h (by simp)

/-- Witness for C2: a concrete completion run from ACTIVE. -/
theorem finalize_terminal_columns_witness :
    ∃ m2, dbAfterC2.findMatch 1 = some m2 ∧
      (m2.status = .finished ∨ m2.status = .error) ∧
      (m2.status = .finished →
        m2.finished_at = some 9 ∧
        m2.player1_rating_change.isSome ∧ m2.player2_rating_change.isSome) ∧
      (m2.status = .error →
        m2.finished_at = mActive.finished_at ∧
        m2.player1_rating_change = some 0 ∧ m2.player2_rating_change = some 0) :=
  finalize_terminal_columns rcZero 1 "completion" none 9 dbActive mActive
    resC2 dbAfterC2 rfl rfl rfl

/-- Counterexample for C2 as stated: a technical-error run sets the status
to ERROR but leaves `finished_at` NULL. -/
theorem error_transition_no_finished_at :
    finalize_match rcZero 1 "technical_error" none 9 dbActive =
      .ok (resTechErr, dbAfterTechErr) ∧
    dbAfterTechErr.findMatch 1 = some mAfterTechErr ∧
    mAfterTechErr.status = .error ∧
    mAfterTechErr.finished_at = none :=
  ⟨rfl, rfl, rfl, rfl⟩

/-- **C4** (confirmed).  Finalizing an ACTIVE match with reason
`technical_error` yields winner NULL, deltas (0, 0) and status ERROR, and
does not touch the `users` table (no rating write on this path). -/
theorem finalize_technical_error_frame (rc : RatingChangesFn) (mid : Int)
    (w : Option Int) (now : Int) (db : DB) (m : MatchRec)
    (hm : db.findMatch mid = some m) (ha : m.status = .active) :
    ∃ res db2, finalize_match rc mid "technical_error" w now db = .ok (res, db2) ∧
      res.winner_id = none ∧
      res.player1_rating_change = 0 ∧ res.player2_rating_change = 0 ∧
      db2.users = db.users ∧
      db2.findMatch mid = some
        { m with status := .error, winner_id := none,
                 player1_rating_change := some 0,
                 player2_rating_change := some 0 } := by
  refine ⟨{ winner_id := none, player1_rating_change := 0, player1_new_rating := 0,
            player2_rating_change := 0, player2_new_rating := 0,
            player1_score := m.player1_score, player2_score := m.player2_score },
          updateMatchRow db mid (fun x =>
            { x with status := .error, winner_id := none,
                     player1_rating_change := some 0,
                     player2_rating_change := some 0 }),
          ?_, rfl, rfl, rfl, rfl, ?_⟩
  · simp [finalize_match, hm, ha]
  · rw [findMatch_techErrUpdate, hm]; rfl

/-- Witness for C4: the concrete ACTIVE store. -/
theorem finalize_technical_error_frame_witness :
    ∃ res db2, finalize_match rcZero 1 "technical_error" none 9 dbActive =
        .ok (res, db2) ∧
      res.winner_id = none ∧
      res.player1_rating_change = 0 ∧ res.player2_rating_change = 0 ∧
      db2.users = dbActive.users ∧
      db2.findMatch 1 = some
        { mActive with status := .error, winner_id := none,
                       player1_rating_change := some 0,
                       player2_rating_change := some 0 } :=
  finalize_technical_error_frame rcZero 1 none 9 dbActive mActive rfl rfl

/-- **C10** (confirmed).  The expiry callback armed for a disconnect while
the opponent stays connected finalizes the ACTIVE match as
`technical_error`: status ERROR, winner NULL, both deltas 0, and the
`users` table (ratings) untouched — never a forfeit win for the remaining
player. -/
theorem disconnect_timeout_finalizes_technical_error (rc : RatingChangesFn)
    (mid now : Int) (db : DB) (m : MatchRec)
    (hm : db.findMatch mid = some m) (ha : m.status = .active) :
    (disconnect_timeout_callback rc mid now db).users = db.users ∧
    (disconnect_timeout_callback rc mid now db).findMatch mid =
      some { m with status := .error, winner_id := none,
                    player1_rating_change := some 0,
                    player2_rating_change := some 0 } := by
  have hrun : handle_technical_error rc mid now db =
      .ok (updateMatchRow db mid (fun x =>
        { x with status := .error, winner_id := none,
                 player1_rating_change := some 0,
                 player2_rating_change := some 0 })) := by
    simp [handle_technical_error, Except.map, finalize_match, hm, ha]
  constructor
  · simp only [disconnect_timeout_callback, hrun]
    rfl
  · simp only [disconnect_timeout_callback, hrun]
    rw [findMatch_techErrUpdate, hm]; rfl

/-- Witness for C10: the concrete ACTIVE store. -/
theorem disconnect_timeout_finalizes_technical_error_witness :
    (disconnect_timeout_callback rcZero 1 9 dbActive).users = dbActive.users ∧
    (disconnect_timeout_callback rcZero 1 9 dbActive).findMatch 1 =
      some { mActive with status := .error, winner_id := none,
                          player1_rating_change := some 0,
                          player2_rating_change := some 0 } :=
  disconnect_timeout_finalizes_technical_error rcZero 1 9 dbActive mActive rfl rfl

theorem length_le_length_iff_covers {α γ β : Type} [DecidableEq β]
    (A : List α) (T : List γ) (f : α → β) (g : γ → β)
    (hA : (A.map f).Nodup) (hT : (T.map g).Nodup)
    (hsub : ∀ a ∈ A, ∃ t ∈ T, g t = f a) :
    T.length ≤ A.length ↔ ∀ t ∈ T, ∃ a ∈ A, f a = g t := by
  have hsubF : (A.map f).toFinset ⊆ (T.map g).toFinset := by
    intro b hb
    rw [List.mem_toFinset, List.mem_map] at hb
    obtain ⟨a, ha, rfl⟩ := hb
    obtain ⟨t, ht, hgt⟩ := hsub a ha
    rw [List.mem_toFinset, List.mem_map]
    exact ⟨t, ht, hgt⟩
  have hcA : (A.map f).toFinset.card = A.length := by
    rw [List.toFinset_card_of_nodup hA, List.length_map]
  have hcT : (T.map g).toFinset.card = T.length := by
    rw [List.toFinset_card_of_nodup hT, List.length_map]
  constructor
  · intro hlen t ht
    have heq : (A.map f).toFinset = (T.map g).toFinset :=
      Finset.eq_of_subset_of_card_le hsubF (by omega)
    have hmem : g t ∈ (T.map g).toFinset := by
      rw [List.mem_toFinset, List.mem_map]; exact ⟨t, ht, rfl⟩
    rw [← heq, List.mem_toFinset, List.mem_map] at hmem
    obtain ⟨a, ha, hfa⟩ := hmem
    exact ⟨a, ha, hfa⟩
  · intro hcov
    have hsubT : (T.map g).toFinset ⊆ (A.map f).toFinset := by
      intro b hb
      rw [List.mem_toFinset, List.mem_map] at hb
      obtain ⟨t, ht, rfl⟩ := hb
      obtain ⟨a, ha, hfa⟩ := hcov t ht
      rw [List.mem_toFinset, List.mem_map]
      exact ⟨a, ha, hfa⟩
    have := Finset.card_le_card hsubT
    omega

theorem completion_count_iff (mid : Int) (db : DB) (p : MatchAnswerRec → Bool)
    (hpm : ∀ a, p a = true → a.match_id = mid)
    (hpu : ∀ a b, p a = true → p b = true → a.user_id = b.user_id)
    (haN : answerKeysNodup db)
    (htN : (db.matchTasks.map (fun t => (t.match_id, t.task_id))).Nodup)
    (hkey : ∀ a ∈ db.matchAnswers, a.match_id = mid →
      ∃ t ∈ db.matchTasks, t.match_id = mid ∧ t.task_id = a.task_id) :
    ((db.matchTasks.filter (fun t => t.match_id == mid)).length
        ≤ (db.matchAnswers.filter p).length)
      ↔ ∀ t ∈ db.matchTasks.filter (fun t => t.match_id == mid),
          ∃ a ∈ db.matchAnswers, p a = true ∧ a.task_id = t.task_id := by
  have hAkeys : ((db.matchAnswers.filter p).map
      (fun a => (a.match_id, a.user_id, a.task_id))).Nodup :=
    ((List.filter_sublist _).map _).nodup haN
  have hAn : ((db.matchAnswers.filter p).map (fun a => a.task_id)).Nodup := by
    have h1 : (((db.matchAnswers.filter p).map
        (fun a => (a.match_id, a.user_id, a.task_id))).map
          (fun q => q.2.2)).Nodup := by
      refine List.Nodup.map_on ?_ hAkeys
      intro x hx y hy hxy
      rw [List.mem_map] at hx hy
      obtain ⟨a, ha, rfl⟩ := hx
      obtain ⟨b, hb, rfl⟩ := hy
      have hpa : p a = true := (List.mem_filter.mp ha).2
      have hpb : p b = true := (List.mem_filter.mp hb).2
      have h2 : a.match_id = b.match_id := by rw [hpm a hpa, hpm b hpb]
      have h3 : a.user_id = b.user_id := hpu a b hpa hpb
      simp only [Prod.mk.injEq]
      exact ⟨h2, h3, hxy⟩
    rw [List.map_map] at h1
    exact h1
  have hTkeys : ((db.matchTasks.filter (fun t => t.match_id == mid)).map
      (fun t => (t.match_id, t.task_id))).Nodup :=
    ((List.filter_sublist _).map _).nodup htN
  have hTn : ((db.matchTasks.filter (fun t => t.match_id == mid)).map
      (fun t => t.task_id)).Nodup := by
    have h1 : (((db.matchTasks.filter (fun t => t.match_id == mid)).map
        (fun t => (t.match_id, t.task_id))).map (fun q => q.2)).Nodup := by
      refine List.Nodup.map_on ?_ hTkeys
      intro x hx y hy hxy
      rw [List.mem_map] at hx hy
      obtain ⟨a, ha, rfl⟩ := hx
      obtain ⟨b, hb, rfl⟩ := hy
      have hpa : a.match_id = mid := by
        have := (List.mem_filter.mp ha).2; simpa using this
      have hpb : b.match_id = mid := by
        have := (List.mem_filter.mp hb).2; simpa using this
      simp only [Prod.mk.injEq]
      exact ⟨by rw [hpa, hpb], hxy⟩
    rw [List.map_map] at h1
    exact h1
  have hsub : ∀ a ∈ db.matchAnswers.filter p,
      ∃ t ∈ db.matchTasks.filter (fun t => t.match_id == mid),
        t.task_id = a.task_id := by
    intro a ha
    have hmem := List.mem_filter.mp ha
    obtain ⟨t, ht, htm, htt⟩ := hkey a hmem.1 (hpm a hmem.2)
    exact ⟨t, List.mem_filter.mpr ⟨ht, by simp [htm]⟩, htt⟩
  rw [length_le_length_iff_covers (db.matchAnswers.filter p)
    (db.matchTasks.filter (fun t => t.match_id == mid))
    (fun a => a.task_id) (fun t => t.task_id) hAn hTn hsub]
  constructor
  · intro h t ht
    obtain ⟨a, haA, hta⟩ := h t ht
    have := List.mem_filter.mp haA
    exact ⟨a, this.1, this.2, hta⟩
  · intro h t ht
    obtain ⟨a, hamem, hpa, hta⟩ := h t ht
    exact ⟨a, List.mem_filter.mpr ⟨hamem, hpa⟩, hta⟩

/-- **C6** (amended).  Under the unique indexes on `match_tasks` and
`match_answers` and with every answer row of the match keyed to one of the
match's `MatchTask` rows, `check_match_completion` returns true exactly
when the match has at least one `MatchTask` row **and** both participants
have at least one `MatchAnswer` per task; with an empty `MatchTask` set
the source returns false (the claim's vacuous-truth case is what fails). -/
theorem check_completion_iff (mid : Int) (db : DB) (m : MatchRec)
    (hm : db.findMatch mid = some m)
    (htN : (db.matchTasks.map (fun t => (t.match_id, t.task_id))).Nodup)
    (haN : answerKeysNodup db)
    (hkey : ∀ a ∈ db.matchAnswers, a.match_id = mid →
      ∃ t ∈ db.matchTasks, t.match_id = mid ∧ t.task_id = a.task_id) :
    check_match_completion mid db = true ↔
      ((db.matchTasks.filter (fun t => t.match_id == mid)) ≠ [] ∧
        specBothAnsweredEveryTask mid m db = true) := by
  have h1 := completion_count_iff mid db
    (fun a => a.match_id == mid && a.user_id == m.player1_id)
    (fun a ha => by simp only [Bool.and_eq_true, beq_iff_eq] at ha; exact ha.1)
    (fun a b ha hb => by
      simp only [Bool.and_eq_true, beq_iff_eq] at ha hb
      rw [ha.2, hb.2])
    haN htN hkey
  have h2 := completion_count_iff mid db
    (fun a => a.match_id == mid && m.player2_id == some a.user_id)
    (fun a ha => by simp only [Bool.and_eq_true, beq_iff_eq] at ha; exact ha.1)
    (fun a b ha hb => by
      simp only [Bool.and_eq_true, beq_iff_eq] at ha hb
      have := ha.2.symm.trans hb.2
      exact Option.some.inj this)
    haN htN hkey
  simp only [check_match_completion, hm]
  by_cases hT0 : db.matchTasks.filter (fun t => t.match_id == mid) = []
  · simp [hT0]
  · have hlen : ((db.matchTasks.filter (fun t => t.match_id == mid)).length == 0) = false := by
      simpa [List.length_eq_zero] using hT0
    simp only [hlen, Bool.false_eq_true, if_false, Bool.and_eq_true, decide_eq_true_eq]
    rw [h1, h2]
    unfold specBothAnsweredEveryTask
    rw [List.all_eq_true]
    constructor
    · rintro ⟨hc1, hc2⟩
      refine ⟨hT0, fun t ht => ?_⟩
      rw [Bool.and_eq_true, List.any_eq_true, List.any_eq_true]
      obtain ⟨a, haa, hpa, hta⟩ := hc1 t ht
      obtain ⟨b, hbb, hpb, htb⟩ := hc2 t ht
      refine ⟨⟨a, haa, ?_⟩, ⟨b, hbb, ?_⟩⟩
      · rw [Bool.and_eq_true]
        exact ⟨hpa, by simp [hta]⟩
      · rw [Bool.and_eq_true]
        exact ⟨hpb, by simp [htb]⟩
    · rintro ⟨-, hall⟩
      constructor
      · intro t ht
        have := hall t ht
        rw [Bool.and_eq_true, List.any_eq_true, List.any_eq_true] at this
        obtain ⟨⟨a, haa, hpa⟩, -⟩ := this
        rw [Bool.and_eq_true] at hpa
        exact ⟨a, haa, hpa.1, by simpa using hpa.2⟩
      · intro t ht
        have := hall t ht
        rw [Bool.and_eq_true, List.any_eq_true, List.any_eq_true] at this
        obtain ⟨-, ⟨b, hbb, hpb⟩⟩ := this
        rw [Bool.and_eq_true] at hpb
        exact ⟨b, hbb, hpb.1, by simpa using hpb.2⟩

/-- Witness for C6: a concrete store where both players answered the
single task. -/
theorem check_completion_iff_witness :
    check_match_completion 1 dbBothAnswered = true ↔
      ((dbBothAnswered.matchTasks.filter (fun t => t.match_id == 1)) ≠ [] ∧
        specBothAnsweredEveryTask 1 mActive dbBothAnswered = true) :=
  check_completion_iff 1 dbBothAnswered mActive rfl (by decide)
    (by unfold answerKeysNodup; decide) (by decide)

/-- Counterexample for C6 as stated: with an empty `MatchTask` set the
spec-level predicate holds vacuously but the source returns false. -/
theorem check_completion_empty_tasks :
    check_match_completion 1 dbNoTasks = false ∧
    dbNoTasks.findMatch 1 = some mActive ∧
    (dbNoTasks.matchTasks.filter (fun t => t.match_id == 1)) = [] ∧
    specBothAnsweredEveryTask 1 mActive dbNoTasks = true :=
  ⟨rfl, rfl, rfl, rfl⟩

theorem filter_answerKey_length_le_one (db : DB) (mid uid tid : Int)
    (h : answerKeysNodup db) :
    (db.matchAnswers.filter (answerKey mid uid tid)).length ≤ 1 := by
  have hnd : ((db.matchAnswers.filter (answerKey mid uid tid)).map
      (fun a => (a.match_id, a.user_id, a.task_id))).Nodup :=
    ((List.filter_sublist _).map _).nodup h
  match hl : db.matchAnswers.filter (answerKey mid uid tid) with
  | [] => simp
  | [a] => simp
  | a :: b :: t =>
    exfalso
    rw [hl] at hnd
    have hka : answerKey mid uid tid a = true := by
      have hmem : a ∈ db.matchAnswers.filter (answerKey mid uid tid) := by
        rw [hl]; exact List.mem_cons_self _ _
      exact (List.mem_filter.mp hmem).2
    have hkb : answerKey mid uid tid b = true := by
      have hmem : b ∈ db.matchAnswers.filter (answerKey mid uid tid) := by
        rw [hl]; exact List.mem_cons_of_mem _ (List.mem_cons_self _ _)
      exact (List.mem_filter.mp hmem).2
    simp only [answerKey, Bool.and_eq_true, beq_iff_eq] at hka hkb
    rw [List.map_cons, List.map_cons, List.nodup_cons] at hnd
    apply hnd.1
    have hab : (a.match_id, a.user_id, a.task_id) = (b.match_id, b.user_id, b.task_id) := by
      rw [hka.1.1, hka.1.2, hka.2, hkb.1.1, hkb.1.2, hkb.2]
    rw [hab]
    exact List.mem_cons_self _ _

theorem findMatch_scoreUpdate1 (db : DB) (mid s : Int) (A : List MatchAnswerRec) :
    DB.findMatch
      { db with
        matchAnswers := A,
        matchRows := db.matchRows.map (fun x => if x.id == mid
          then { x with player1_score := s } else x) } mid
      = (db.findMatch mid).map (fun x => { x with player1_score := s }) :=
  find?_map_ite db.matchRows mid _ (fun _ => rfl)

theorem findMatch_scoreUpdate2 (db : DB) (mid s : Int) (A : List MatchAnswerRec) :
    DB.findMatch
      { db with
        matchAnswers := A,
        matchRows := db.matchRows.map (fun x => if x.id == mid
          then { x with player2_score := s } else x) } mid
      = (db.findMatch mid).map (fun x => { x with player2_score := s }) :=
  find?_map_ite db.matchRows mid _ (fun _ => rfl)

theorem process_answer_run (mid uid tid : Int) (ans : String) (now : Int)
    (db : DB) (m : MatchRec) (task : TaskRec)
    (hm : db.findMatch mid = some m) (ht : db.findTask tid = some task)
    (hone : (db.matchAnswers.filter (answerKey mid uid tid)).length ≤ 1)
    (hpart : uid = m.player1_id ∨ (uid ≠ m.player1_id ∧ m.player2_id = some uid)) :
    ∃ s db2, process_answer mid uid tid ans now db =
        .ok ((pyNormalize ans == pyNormalize task.answer, s), db2) ∧
      db2.users = db.users ∧ db2.tasks = db.tasks ∧ db2.matchTasks = db.matchTasks ∧
      db2.matchAnswers = (if (db.matchAnswers.filter (answerKey mid uid tid)).isEmpty then
          db.matchAnswers ++
            [{ match_id := mid, user_id := uid, task_id := tid,
               answer := ans,
               is_correct := (pyNormalize ans == pyNormalize task.answer),
               submitted_at := now }]
        else db.matchAnswers.map (fun a => if answerKey mid uid tid a then
          updateAnswerRow ans (pyNormalize ans == pyNormalize task.answer) now a else a)) ∧
      s = correctCount mid uid db2.matchAnswers ∧
      db2.findMatch mid = some (if uid == m.player1_id
        then { m with player1_score := s } else { m with player2_score := s }) := by
  simp only [process_answer, hm, ht]
  match hl : db.matchAnswers.filter (answerKey mid uid tid) with
  | _ :: _ :: _ => rw [hl] at hone; simp at hone
  | [] =>
    rcases hpart with hp1 | ⟨hp1, hp2⟩
    · have hb1 : (uid == m.player1_id) = true := by simp [hp1]
      simp only [hb1, if_true]
      refine ⟨_, _, rfl, rfl, rfl, rfl, by simp [hl], rfl, ?_⟩
      rw [findMatch_scoreUpdate1, hm]
      rfl
    · have hb1 : (uid == m.player1_id) = false := by simp [hp1]
      have hb2 : (m.player2_id == some uid) = true := by simp [hp2]
      simp only [hb1, hb2, if_true, if_false, Bool.false_eq_true]
      refine ⟨_, _, rfl, rfl, rfl, rfl, by simp [hl], rfl, ?_⟩
      rw [findMatch_scoreUpdate2, hm]
      rfl
  | [a0] =>
    rcases hpart with hp1 | ⟨hp1, hp2⟩
    · have hb1 : (uid == m.player1_id) = true := by simp [hp1]
      simp only [hb1, if_true]
      refine ⟨_, _, rfl, rfl, rfl, rfl, by simp [hl], rfl, ?_⟩
      rw [findMatch_scoreUpdate1, hm]
      rfl
    · have hb1 : (uid == m.player1_id) = false := by simp [hp1]
      have hb2 : (m.player2_id == some uid) = true := by simp [hp2]
      simp only [hb1, hb2, if_true, if_false, Bool.false_eq_true]
      refine ⟨_, _, rfl, rfl, rfl, rfl, by simp [hl], rfl, ?_⟩
      rw [findMatch_scoreUpdate2, hm]
      rfl

/-- **C3** (confirmed).  A submission on a valid match/task by a
participant judges `is_correct` as equality of the submitted and canonical
answers after strip+lowercase, recomputes the submitter's score as the
count of that user's correct `MatchAnswer` rows of the match, writes it to
`player1_score` when the submitter is player 1 and to `player2_score` when
player 2, and returns the `(is_correct, new_score)` pair. -/
theorem process_answer_judges_and_scores (mid uid tid : Int) (ans : String)
    (now : Int) (db : DB) (m : MatchRec) (task : TaskRec)
    (hm : db.findMatch mid = some m) (ht : db.findTask tid = some task)
    (hN : answerKeysNodup db)
    (hpart : uid = m.player1_id ∨ (uid ≠ m.player1_id ∧ m.player2_id = some uid)) :
    ∃ s db2, process_answer mid uid tid ans now db =
        .ok ((pyNormalize ans == pyNormalize task.answer, s), db2) ∧
      s = correctCount mid uid db2.matchAnswers ∧
      ((uid = m.player1_id ∧
          db2.findMatch mid = some { m with player1_score := s }) ∨
       (uid ≠ m.player1_id ∧ m.player2_id = some uid ∧
          db2.findMatch mid = some { m with player2_score := s })) := by
  obtain ⟨s, db2, h1, -, -, -, -, hs, hfind⟩ :=
    process_answer_run mid uid tid ans now db m task hm ht
      (filter_answerKey_length_le_one db mid uid tid hN) hpart
  refine ⟨s, db2, h1, hs, ?_⟩
  rcases hpart with hp1 | ⟨hp1, hp2⟩
  · left
    refine ⟨hp1, ?_⟩
    simpa [show (uid == m.player1_id) = true by simp [hp1]] using hfind
  · right
    refine ⟨hp1, hp2, ?_⟩
    simpa [show (uid == m.player1_id) = false by simp [hp1]] using hfind

/-- Witness for C3: user 1 submits `" 42 "` for task 10 (canonical `"42"`)
in the concrete ACTIVE store. -/
theorem process_answer_judges_and_scores_witness :
    ∃ s db2, process_answer 1 1 10 " 42 " 5 dbActive =
        .ok ((pyNormalize " 42 " == pyNormalize "42", s), db2) ∧
      s = correctCount 1 1 db2.matchAnswers ∧
      ((1 = mActive.player1_id ∧
          db2.findMatch 1 = some { mActive with player1_score := s }) ∨
       ((1 : Int) ≠ mActive.player1_id ∧ mActive.player2_id = some 1 ∧
          db2.findMatch 1 = some { mActive with player2_score := s })) :=
  process_answer_judges_and_scores 1 1 10 " 42 " 5 dbActive mActive
    { id := 10, answer := "42" } rfl rfl
    (by unfold answerKeysNodup; decide) (Or.inl rfl)

theorem keys_map_updIf (l : List MatchAnswerRec) (mid uid tid : Int)
    (ans : String) (b : Bool) (now : Int) :
    ((l.map (fun a => if answerKey mid uid tid a
        then updateAnswerRow ans b now a else a)).map
      (fun a => (a.match_id, a.user_id, a.task_id)))
      = l.map (fun a => (a.match_id, a.user_id, a.task_id)) := by
  rw [List.map_map]
  refine List.map_congr_left ?_
  intro a ha
  by_cases hk : answerKey mid uid tid a = true
  · simp [hk, updateAnswerRow]
  · simp [hk]

theorem answerKey_of_key_eq (a : MatchAnswerRec) (mid uid tid : Int)
    (h : (a.match_id, a.user_id, a.task_id) = (mid, uid, tid)) :
    answerKey mid uid tid a = true := by
  rw [Prod.mk.injEq, Prod.mk.injEq] at h
  simp [answerKey, h.1, h.2.1, h.2.2]

theorem process_answer_ok_inversion (mid uid tid : Int) (ans : String)
    (now : Int) (db : DB) (r : Bool × Int) (db2 : DB)
    (h : process_answer mid uid tid ans now db = .ok (r, db2)) :
    ∃ m task, db.findMatch mid = some m ∧ db.findTask tid = some task ∧
      (db.matchAnswers.filter (answerKey mid uid tid)).length ≤ 1 ∧
      (uid = m.player1_id ∨ (uid ≠ m.player1_id ∧ m.player2_id = some uid)) := by
  cases hm : db.findMatch mid with
  | none => simp only [process_answer, hm] at h; exact absurd h (by simp)
  | some m =>
  cases ht : db.findTask tid with
  | none => simp only [process_answer, hm, ht] at h; exact absurd h (by simp)
  | some task =>
  refine ⟨m, task, rfl, rfl, ?_, ?_⟩
  · match hl : db.matchAnswers.filter (answerKey mid uid tid) with
    | [] => simp
    | [a] => simp
    | a :: b :: t =>
      simp only [process_answer, hm, ht, hl] at h
      exact absurd h (by simp)
  · by_cases hb1 : (uid == m.player1_id) = true
    · exact Or.inl (by simpa using hb1)
    · by_cases hb2 : (m.player2_id == some uid) = true
      · refine Or.inr ⟨by simpa using hb1, by simpa using hb2⟩
      · exfalso
        simp only [process_answer, hm, ht, eq_false_of_ne_true hb1,
          eq_false_of_ne_true hb2] at h
        match hl : db.matchAnswers.filter (answerKey mid uid tid) with
        | [] => simp only [hl] at h; exact absurd h (by simp)
        | [a] => simp only [hl] at h; exact absurd h (by simp)
        | a :: b :: t => simp only [hl] at h; exact absurd h (by simp)

theorem process_answer_preserves_keysNodup (mid uid tid : Int) (ans : String)
    (now : Int) (db : DB) (r : Bool × Int) (db2 : DB)
    (hN : answerKeysNodup db)
    (h : process_answer mid uid tid ans now db = .ok (r, db2)) :
    answerKeysNodup db2 := by
  obtain ⟨m, task, hm, ht, hone, hpart⟩ :=
    process_answer_ok_inversion mid uid tid ans now db r db2 h
  obtain ⟨s, db2c, hrun, -, -, -, hans, -, -⟩ :=
    process_answer_run mid uid tid ans now db m task hm ht hone hpart
  rw [h, Except.ok.injEq, Prod.mk.injEq] at hrun
  obtain ⟨-, hdb⟩ := hrun
  subst hdb
  unfold answerKeysNodup
  rw [hans]
  by_cases hl : (db.matchAnswers.filter (answerKey mid uid tid)).isEmpty = true
  · rw [if_pos hl, List.map_append, List.nodup_append]
    refine ⟨hN, by simp, ?_⟩
    intro x hx hx2
    simp only [List.map_cons, List.map_nil, List.mem_singleton] at hx2
    rw [List.mem_map] at hx
    obtain ⟨a, ha, rfl⟩ := hx
    rw [List.isEmpty_iff] at hl
    have hnk := (List.filter_eq_nil_iff.mp hl) a ha
    exact hnk (answerKey_of_key_eq a mid uid tid hx2)
  · rw [if_neg hl, keys_map_updIf]
    exact hN

/-- **C8** (confirmed).  Answer-upsert idempotence: a successful submission
preserves the at-most-one-row-per-`(match_id, user_id, task_id)` invariant;
when a row for the key already exists, submitting (any text) leaves the
total row count unchanged and the row is updated in place (`answer`,
recomputed `is_correct`, fresh `submitted_at`); and submitting the same
text twice returns the same `is_correct`, leaves the row count unchanged
and leaves the `is_correct` column of every row unchanged. -/
theorem answer_upsert_idempotence (mid uid tid : Int) (ans : String)
    (now now2 : Int) (db : DB) (m : MatchRec) (task : TaskRec)
    (hm : db.findMatch mid = some m) (ht : db.findTask tid = some task)
    (hN : answerKeysNodup db)
    (hpart : uid = m.player1_id ∨ (uid ≠ m.player1_id ∧ m.player2_id = some uid)) :
    (∀ r db2, process_answer mid uid tid ans now db = .ok (r, db2) →
      answerKeysNodup db2) ∧
    (∀ a0, a0 ∈ db.matchAnswers → answerKey mid uid tid a0 = true →
      ∀ r db2, process_answer mid uid tid ans now db = .ok (r, db2) →
        db2.matchAnswers.length = db.matchAnswers.length ∧
        updateAnswerRow ans (pyNormalize ans == pyNormalize task.answer) now a0
          ∈ db2.matchAnswers) ∧
    (∀ b1 s1 db1, process_answer mid uid tid ans now db = .ok ((b1, s1), db1) →
      ∃ s2 db2, process_answer mid uid tid ans now2 db1 = .ok ((b1, s2), db2) ∧
        db2.matchAnswers.length = db1.matchAnswers.length ∧
        db2.matchAnswers.map (fun a => a.is_correct) =
          db1.matchAnswers.map (fun a => a.is_correct)) := by
  have hone := filter_answerKey_length_le_one db mid uid tid hN
  refine ⟨?_, ?_, ?_⟩
  · intro r db2 h
    exact process_answer_preserves_keysNodup mid uid tid ans now db r db2 hN h
  · intro a0 ha0 hk r db2 h
    obtain ⟨s, db2c, hrun, -, -, -, hans, -, -⟩ :=
      process_answer_run mid uid tid ans now db m task hm ht hone hpart
    rw [h, Except.ok.injEq, Prod.mk.injEq] at hrun
    obtain ⟨-, hdb⟩ := hrun
    subst hdb
    have hfe : (db.matchAnswers.filter (answerKey mid uid tid)).isEmpty = false := by
      have hmem : a0 ∈ db.matchAnswers.filter (answerKey mid uid tid) :=
        List.mem_filter.mpr ⟨ha0, hk⟩
      cases hfe' : (db.matchAnswers.filter (answerKey mid uid tid)).isEmpty with
      | false => rfl
      | true => rw [List.isEmpty_iff] at hfe'; rw [hfe'] at hmem; cases hmem
    rw [hans, if_neg (by simp [hfe])]
    refine ⟨List.length_map _ _, ?_⟩
    have hmm2 := List.mem_map_of_mem (fun a => if answerKey mid uid tid a
      then updateAnswerRow ans (pyNormalize ans == pyNormalize task.answer) now a
      else a) ha0
    simpa [hk] using hmm2
  · intro b1 s1 db1 h1
    obtain ⟨s, db1c, hrun, -, htk, -, hans, -, hfind⟩ :=
      process_answer_run mid uid tid ans now db m task hm ht hone hpart
    rw [h1, Except.ok.injEq, Prod.mk.injEq, Prod.mk.injEq] at hrun
    obtain ⟨⟨hb, -⟩, hdb⟩ := hrun
    subst hdb
    -- facts about the intermediate store db1c
    have ht2 : db1.findTask tid = some task := by
      unfold DB.findTask at ht ⊢
      rw [htk]; exact ht
    have hN1 : answerKeysNodup db1 :=
      process_answer_preserves_keysNodup mid uid tid ans now db _ _ hN h1
    have hone2 := filter_answerKey_length_le_one db1 mid uid tid hN1
    -- every row of db1c holding the key carries the recomputed is_correct
    have hcol : ∀ a ∈ db1.matchAnswers, answerKey mid uid tid a = true →
        a.is_correct = (pyNormalize ans == pyNormalize task.answer) := by
      intro a ha hka
      rw [hans] at ha
      by_cases hfe : (db.matchAnswers.filter (answerKey mid uid tid)).isEmpty = true
      · rw [if_pos hfe] at ha
        rcases List.mem_append.mp ha with hold | hnew
        · rw [List.isEmpty_iff] at hfe
          exact absurd hka ((List.filter_eq_nil_iff.mp hfe) a hold)
        · rw [List.mem_singleton] at hnew
          rw [hnew]
      · rw [if_neg hfe] at ha
        rw [List.mem_map] at ha
        obtain ⟨a0, ha0, rfl⟩ := ha
        by_cases hk0 : answerKey mid uid tid a0 = true
        · rw [if_pos hk0]; rfl
        · rw [if_neg hk0] at hka ⊢
          exact absurd hka hk0
    -- a row with the key exists in db1c
    have hrow : ∃ a ∈ db1.matchAnswers, answerKey mid uid tid a = true := by
      rw [hans]
      by_cases hfe : (db.matchAnswers.filter (answerKey mid uid tid)).isEmpty = true
      · rw [if_pos hfe]
        refine ⟨_, List.mem_append.mpr (Or.inr (List.mem_singleton.mpr rfl)), ?_⟩
        simp [answerKey]
      · have hne : db.matchAnswers.filter (answerKey mid uid tid) ≠ [] := by
          intro hx; rw [← List.isEmpty_iff] at hx; exact hfe hx
        obtain ⟨a0, ha0⟩ := List.exists_mem_of_ne_nil _ hne
        have hk0 := (List.mem_filter.mp ha0).2
        have hk0' := hk0
        simp only [answerKey, Bool.and_eq_true, beq_iff_eq] at hk0'
        rw [if_neg hfe]
        refine ⟨_, List.mem_map_of_mem _ (List.mem_filter.mp ha0).1, ?_⟩
        simp [hk0, updateAnswerRow, answerKey, hk0'.1.1, hk0'.1.2, hk0'.2]
    -- the participant facts transfer to the updated match row
    have hm2 := hfind
    rcases hpart with hp | ⟨hp, hp2⟩
    · rw [if_pos (by simp [hp])] at hm2
      obtain ⟨s2, db2c, hrun2, -, -, -, hans2, -, -⟩ :=
        process_answer_run mid uid tid ans now2 db1
          { m with player1_score := s } task hm2 ht2 hone2 (Or.inl hp)
      refine ⟨s2, db2c, by rw [hrun2, hb], ?_, ?_⟩
      · rw [hans2, if_neg ?hne]
        · exact List.length_map _ _
        case hne =>
          obtain ⟨a, ha, hka⟩ := hrow
          simp only [List.isEmpty_iff]
          intro hx
          have : a ∈ db1.matchAnswers.filter (answerKey mid uid tid) :=
            List.mem_filter.mpr ⟨ha, hka⟩
          rw [hx] at this; cases this
      · rw [hans2, if_neg ?hne2]
        case hne2 =>
          obtain ⟨a, ha, hka⟩ := hrow
          simp only [List.isEmpty_iff]
          intro hx
          have : a ∈ db1.matchAnswers.filter (answerKey mid uid tid) :=
            List.mem_filter.mpr ⟨ha, hka⟩
          rw [hx] at this; cases this
        rw [List.map_map]
        refine List.map_congr_left ?_
        intro a ha
        by_cases hka : answerKey mid uid tid a = true
        · simp only [Function.comp_apply, if_pos hka, updateAnswerRow]
          exact (hcol a ha hka).symm
        · simp only [Function.comp_apply, if_neg hka]
    · rw [if_neg (by simp [hp])] at hm2
      obtain ⟨s2, db2c, hrun2, -, -, -, hans2, -, -⟩ :=
        process_answer_run mid uid tid ans now2 db1
          { m with player2_score := s } task hm2 ht2 hone2 (Or.inr ⟨hp, hp2⟩)
      refine ⟨s2, db2c, by rw [hrun2, hb], ?_, ?_⟩
      · rw [hans2, if_neg ?hne3]
        · exact List.length_map _ _
        case hne3 =>
          obtain ⟨a, ha, hka⟩ := hrow
          simp only [List.isEmpty_iff]
          intro hx
          have : a ∈ db1.matchAnswers.filter (answerKey mid uid tid) :=
            List.mem_filter.mpr ⟨ha, hka⟩
          rw [hx] at this; cases this
      · rw [hans2, if_neg ?hne4]
        case hne4 =>
          obtain ⟨a, ha, hka⟩ := hrow
          simp only [List.isEmpty_iff]
          intro hx
          have : a ∈ db1.matchAnswers.filter (answerKey mid uid tid) :=
            List.mem_filter.mpr ⟨ha, hka⟩
          rw [hx] at this; cases this
        rw [List.map_map]
        refine List.map_congr_left ?_
        intro a ha
        by_cases hka : answerKey mid uid tid a = true
        · simp only [Function.comp_apply, if_pos hka, updateAnswerRow]
          exact (hcol a ha hka).symm
        · simp only [Function.comp_apply, if_neg hka]

/-- Witness for C8: resubmitting `"42"` for the already-answered
`(match 1, user 1, task 10)` key in the concrete store. -/
theorem answer_upsert_idempotence_witness :
    (∀ r db2, process_answer 1 1 10 "42" 5 dbBothAnswered = .ok (r, db2) →
      answerKeysNodup db2) ∧
    (∀ a0, a0 ∈ dbBothAnswered.matchAnswers → answerKey 1 1 10 a0 = true →
      ∀ r db2, process_answer 1 1 10 "42" 5 dbBothAnswered = .ok (r, db2) →
        db2.matchAnswers.length = dbBothAnswered.matchAnswers.length ∧
        updateAnswerRow "42" (pyNormalize "42" == pyNormalize "42") 5 a0
          ∈ db2.matchAnswers) ∧
    (∀ b1 s1 db1, process_answer 1 1 10 "42" 5 dbBothAnswered =
        .ok ((b1, s1), db1) →
      ∃ s2 db2, process_answer 1 1 10 "42" 6 db1 = .ok ((b1, s2), db2) ∧
        db2.matchAnswers.length = db1.matchAnswers.length ∧
        db2.matchAnswers.map (fun a => a.is_correct) =
          db1.matchAnswers.map (fun a => a.is_correct)) :=
  answer_upsert_idempotence 1 1 10 "42" 5 6 dbBothAnswered mActive
    { id := 10, answer := "42" } rfl rfl
    (by unfold answerKeysNodup; decide) (Or.inl rfl)

theorem find?_eq_some_of_unique {α : Type} (l : List α) (p : α → Bool) (x : α)
    (hx : x ∈ l) (hp : p x = true) (huniq : ∀ y ∈ l, p y = true → y = x) :
    l.find? p = some x := by
  induction l with
  | nil => cases hx
  | cons a t ih =>
    by_cases hpa : p a = true
    · rw [List.find?_cons_of_pos _ hpa]
      rw [huniq a (List.mem_cons_self _ _) hpa]
    · rw [List.find?_cons_of_neg _ (by simpa using hpa)]
      apply ih
      · rcases List.mem_cons.mp hx with rfl | hxt
        · exact absurd hp hpa
        · exact hxt
      · intro y hy hpy
        exact huniq y (List.mem_cons_of_mem _ hy) hpy

theorem foldl_earliestStep_some (t : List MatchRec) :
    ∀ b : MatchRec, ∃ c, t.foldl earliestStep (some b) = some c := by
  induction t with
  | nil => intro b; exact ⟨b, rfl⟩
  | cons x xs ih =>
    intro b
    rw [List.foldl_cons]
    rcases ih (if x.created_at < b.created_at then x else b) with ⟨c, hc⟩
    refine ⟨c, ?_⟩
    rw [← hc]
    congr 1
    by_cases h : x.created_at < b.created_at <;> simp [earliestStep, h]

theorem earliestMatch_none_imp_nil (l : List MatchRec)
    (h : earliestMatch l = none) : l = [] := by
  cases l with
  | nil => rfl
  | cons a t =>
    exfalso
    obtain ⟨c, hc⟩ := foldl_earliestStep_some t a
    rw [show earliestMatch (a :: t) = t.foldl earliestStep (some a) from rfl,
      hc] at h
    cases h

/-- **C5** (confirmed).  Matchmaker stability: a user whose only
WAITING/ACTIVE match is ACTIVE gets that match back unchanged (polling
after pairing), and calling `find_or_create_match` again right after a
call that returned a WAITING match (no intervening join or cancel) returns
the same WAITING match and leaves the store unchanged, rather than
creating a second one. -/
theorem matchmaker_stability (pt : Int → List MatchTaskRec)
    (uid rating now now2 : Int) (db : DB) :
    (∀ m, m ∈ db.matchRows → guardPred uid m = true → m.status = .active →
      (∀ m2 ∈ db.matchRows, guardPred uid m2 = true → m2 = m) →
      find_or_create_match pt uid rating now db = (m, db)) ∧
    (∀ m db1, find_or_create_match pt uid rating now db = (m, db1) →
      m.status = .waiting →
      find_or_create_match pt uid rating now2 db1 = (m, db1)) := by
  constructor
  · intro m hmem hguard hact huniq
    have hfind : db.matchRows.find? (guardPred uid) = some m :=
      find?_eq_some_of_unique _ _ m hmem hguard huniq
    unfold find_or_create_match
    simp only [hfind]
    rw [if_pos (by simp [hact])]
  · intro m db1 h hw
    unfold find_or_create_match at h
    cases hg : db.matchRows.find? (guardPred uid) with
    | some g =>
      simp only [hg] at h
      by_cases hga : (g.status == MatchStatus.active) = true
      · rw [if_pos hga] at h
        rw [Prod.mk.injEq] at h
        obtain ⟨rfl, -⟩ := h
        rw [hw] at hga
        simp at hga
      · rw [if_neg hga] at h
        unfold find_or_create_step2 at h
        cases hc : earliestMatch (db.matchRows.filter (candPred uid rating db.users)) with
        | some wm =>
          simp only [hc] at h
          rw [Prod.mk.injEq] at h
          obtain ⟨rfl, -⟩ := h
          simp at hw
        | none =>
          simp only [hc] at h
          rw [Prod.mk.injEq] at h
          obtain ⟨rfl, rfl⟩ := h
          unfold find_or_create_match
          simp only [hg]
          rw [if_neg hga]
          unfold find_or_create_step2
          simp only [hc]
    | none =>
      simp only [hg] at h
      unfold find_or_create_step2 at h
      cases hc : earliestMatch (db.matchRows.filter (candPred uid rating db.users)) with
      | some wm =>
        simp only [hc] at h
        rw [Prod.mk.injEq] at h
        obtain ⟨rfl, -⟩ := h
        simp at hw
      | none =>
        simp only [hc] at h
        rw [Prod.mk.injEq] at h
        obtain ⟨rfl, rfl⟩ := h
        set nm : MatchRec :=
          { id := freshMatchId db, player1_id := uid, player2_id := none,
            status := .waiting, player1_score := 0, player2_score := 0,
            winner_id := none, player1_rating_change := none,
            player2_rating_change := none, created_at := now,
            finished_at := none } with hnm
        have hpnm : guardPred uid nm = true := by simp [guardPred, hnm]
        have hg2 : (db.matchRows ++ [nm]).find? (guardPred uid) = some nm := by
          rw [List.find?_append, hg, Option.none_or,
            List.find?_cons_of_pos _ hpnm]
        have hfil2 : (db.matchRows ++ [nm]).filter (candPred uid rating db.users) = [] := by
          rw [List.filter_append, earliestMatch_none_imp_nil _ hc]
          simp [candPred, hnm]
        unfold find_or_create_match
        have hproj : ({ db with matchRows := db.matchRows ++ [nm] } : DB).matchRows
            = db.matchRows ++ [nm] := rfl
        rw [hproj]
        simp only [hg2]
        rw [if_neg (by simp [hnm])]
        unfold find_or_create_step2
        rw [hproj]
        have hproj2 : ({ db with matchRows := db.matchRows ++ [nm] } : DB).users
            = db.users := rfl
        rw [hproj2]
        simp only [hfil2, show earliestMatch ([] : List MatchRec) = none from rfl]

/-- Witness for C5: polling an ACTIVE match returns it unchanged, and a
repeated call after creating a WAITING match returns the same match. -/
theorem matchmaker_stability_witness :
    find_or_create_match (fun _ => []) 1 1000 9 dbActive = (mActive, dbActive) ∧
    find_or_create_match (fun _ => []) 1 1000 7 dbAfterWait = (mWaiting, dbAfterWait) := by
  constructor
  · exact (matchmaker_stability (fun _ => []) 1 1000 9 7 dbActive).1 mActive
      (by decide) (by decide) rfl (by decide)
  · exact (matchmaker_stability (fun _ => []) 1 1000 0 7 dbNoMatches).2 mWaiting
      dbAfterWait rfl rfl

theorem roundHalfEven_sub_le (x : ℝ) : |(roundHalfEven x : ℝ) - x| ≤ 1 / 2 := by
  unfold roundHalfEven
  by_cases hf : Int.fract x = 1 / 2
  · have hx : x = (⌊x⌋ : ℝ) + 1 / 2 := by
      have h1 := Int.self_sub_floor x
      rw [hf] at h1
      linarith
    rw [if_pos hf]
    by_cases he : Even ⌊x⌋
    · rw [if_pos he, abs_le]
      constructor <;> linarith
    · rw [if_neg he, abs_le]
      constructor <;> (push_cast; linarith)
  · rw [if_neg hf]
    have := abs_sub_round x
    rw [abs_sub_comm] at this
    exact this

theorem zero_sum_round (y : ℝ) :
    |roundHalfEven y + roundHalfEven (-y)| ≤ 1 := by
  have h1 := roundHalfEven_sub_le y
  have h2 := roundHalfEven_sub_le (-y)
  have h3 : |((roundHalfEven y : ℝ) - y) + ((roundHalfEven (-y) : ℝ) - (-y))| ≤ 1 :=
    le_trans (abs_add _ _) (by linarith)
  have h4 : ((roundHalfEven y : ℝ) - y) + ((roundHalfEven (-y) : ℝ) - (-y))
      = (roundHalfEven y : ℝ) + (roundHalfEven (-y) : ℝ) := by ring
  rw [h4] at h3
  exact_mod_cast h3

theorem expected_symm (a b : Int) :
    calculate_expected_score a b + calculate_expected_score b a = 1 := by
  unfold calculate_expected_score
  have hsymm : ((a : ℝ) - (b : ℝ)) / 400 = -(((b : ℝ) - (a : ℝ)) / 400) := by ring
  rw [hsymm]
  set e : ℝ := ((b : ℝ) - (a : ℝ)) / 400 with he
  by_cases h1 : e > 10
  · rw [if_pos h1, if_neg (by linarith : ¬(-e > 10)),
      if_pos (by linarith : -e < -10)]
    norm_num
  · rw [if_neg h1]
    by_cases h2 : e < -10
    · rw [if_pos h2, if_pos (by linarith : -e > 10)]
      norm_num
    · rw [if_neg h2, if_neg (by linarith : ¬(-e > 10)),
        if_neg (by linarith : ¬(-e < -10))]
      have ht : (0 : ℝ) < (10 : ℝ) ^ e := Real.rpow_pos_of_pos (by norm_num) e
      have hneg : (10 : ℝ) ^ (-e) = ((10 : ℝ) ^ e)⁻¹ := Real.rpow_neg (by norm_num) e
      rw [hneg]
      have h1t : 1 + (10 : ℝ) ^ e ≠ 0 := by positivity
      have h1t' : 1 + ((10 : ℝ) ^ e)⁻¹ ≠ 0 := by positivity
      field_simp
      ring

theorem rating_change_pair_zero_sum (r1 r2 : Int) (o1 o2 : ℝ)
    (ho1 : 0 ≤ o1 ∧ o1 ≤ 1) (ho2 : 0 ≤ o2 ∧ o2 ≤ 1) (hsum : o1 + o2 = 1) :
    ∃ d1 d2, calculate_rating_change r1 r2 o1 K_FACTOR = .ok d1 ∧
      calculate_rating_change r2 r1 o2 K_FACTOR = .ok d2 ∧ |d1 + d2| ≤ 1 := by
  unfold calculate_rating_change
  rw [if_pos ho1, if_pos ho2]
  refine ⟨_, _, rfl, rfl, ?_⟩
  have he : calculate_expected_score r2 r1 = 1 - calculate_expected_score r1 r2 := by
    have := expected_symm r1 r2; linarith
  rw [he]
  have harg : (K_FACTOR : ℝ) * (o2 - (1 - calculate_expected_score r1 r2))
      = -((K_FACTOR : ℝ) * (o1 - calculate_expected_score r1 r2)) := by
    have ho : o2 = 1 - o1 := by linarith
    rw [ho]; ring
  rw [harg]
  exact zero_sum_round _

/-- **C7** (confirmed).  ELO symmetry and approximate zero-sum:
`expected(R_a,R_b) + expected(R_b,R_a) = 1` within 1e-6 (the clamped
region pairs 0.001 with 0.999 exactly), and for every winner in
{NULL, p1_id, p2_id} the pair (Δ1, Δ2) computed by
`calculate_match_rating_changes` satisfies |Δ1 + Δ2| ≤ 1. -/
theorem elo_symmetry_zero_sum :
    (∀ a b : Int, |calculate_expected_score a b + calculate_expected_score b a - 1|
        ≤ 1 / 1000000) ∧
    (∀ r1 r2 p1 p2 : Int, ∀ w : Option Int,
      (w = none ∨ w = some p1 ∨ w = some p2) →
      zeroSumOk (calculate_match_rating_changes r1 r2 w p1 p2)) := by
  constructor
  · intro a b
    rw [expected_symm a b]
    norm_num
  · intro r1 r2 p1 p2 w hw
    have hrun : ∀ o1 o2 : ℝ, (0 ≤ o1 ∧ o1 ≤ 1) → (0 ≤ o2 ∧ o2 ≤ 1) → o1 + o2 = 1 →
        matchOutcomes w p1 p2 = .ok (o1, o2) →
        zeroSumOk (calculate_match_rating_changes r1 r2 w p1 p2) := by
      intro o1 o2 ho1 ho2 hsum hout
      obtain ⟨d1, d2, hc1, hc2, hz⟩ :=
        rating_change_pair_zero_sum r1 r2 o1 o2 ho1 ho2 hsum
      unfold calculate_match_rating_changes
      simp only [hout, hc1, hc2]
      exact hz
    rcases hw with rfl | rfl | rfl
    · exact hrun 0.5 0.5 (by norm_num) (by norm_num) (by norm_num) rfl
    · exact hrun 1 0 (by norm_num) (by norm_num) (by norm_num)
        (by simp [matchOutcomes])
    · by_cases hpp : p2 = p1
      · exact hrun 1 0 (by norm_num) (by norm_num) (by norm_num)
          (by simp [matchOutcomes, hpp])
      · exact hrun 0 1 (by norm_num) (by norm_num) (by norm_num)
          (by simp [matchOutcomes, hpp])

/-- Witness for C7 at concrete ratings and a concrete winner. -/
theorem elo_symmetry_zero_sum_witness :
    |calculate_expected_score 1000 1200 + calculate_expected_score 1200 1000 - 1|
        ≤ 1 / 1000000 ∧
    zeroSumOk (calculate_match_rating_changes 1000 1100 (some 1) 1 2) :=
  ⟨elo_symmetry_zero_sum.1 1000 1200,
   elo_symmetry_zero_sum.2 1000 1100 1 2 (some 1) (Or.inr (Or.inl rfl))⟩

/-- **C9** (amended).  For all integer ratings with `R_a < R_b`, winning
with outcome 1.0 and K = 32 yields a rating change of **at least** 16
(the claim's strict `> 16` fails at adjacent ratings, where rounding
gives exactly 16). -/
theorem upset_win_gain_at_least_16 (ra rb : Int) (h : ra < rb) :
    okAndGE16 (calculate_rating_change ra rb 1 K_FACTOR) := by
  unfold calculate_rating_change
  rw [if_pos (by norm_num : (0:ℝ) ≤ 1 ∧ (1:ℝ) ≤ 1)]
  show (16 : ℤ) ≤ roundHalfEven ((K_FACTOR : ℝ) * (1 - calculate_expected_score ra rb))
  have hlt : (0 : ℝ) < ((rb : ℝ) - (ra : ℝ)) / 400 := by
    have : (ra : ℝ) < (rb : ℝ) := by exact_mod_cast h
    linarith
  have hexp : calculate_expected_score ra rb ≤ 1 / 2 := by
    unfold calculate_expected_score
    by_cases h1 : ((rb : ℝ) - (ra : ℝ)) / 400 > 10
    · rw [if_pos h1]; norm_num
    · rw [if_neg h1, if_neg (by linarith : ¬(((rb : ℝ) - (ra : ℝ)) / 400 < -10))]
      have ht : (1 : ℝ) ≤ (10 : ℝ) ^ (((rb : ℝ) - (ra : ℝ)) / 400) :=
        Real.one_le_rpow (by norm_num) (le_of_lt hlt)
      have h2 : (2 : ℝ) ≤ 1 + (10 : ℝ) ^ (((rb : ℝ) - (ra : ℝ)) / 400) := by linarith
      exact one_div_le_one_div_of_le (by norm_num) h2
  have hK : (K_FACTOR : ℝ) = 32 := by norm_num [K_FACTOR]
  have harg : (15 + 1 / 2 : ℝ) < (K_FACTOR : ℝ) * (1 - calculate_expected_score ra rb) := by
    rw [hK]; linarith
  have hrd := roundHalfEven_sub_le ((K_FACTOR : ℝ) * (1 - calculate_expected_score ra rb))
  have habs := abs_le.mp hrd
  have hr : (15 : ℝ) <
      ((roundHalfEven ((K_FACTOR : ℝ) * (1 - calculate_expected_score ra rb)) : ℤ) : ℝ) := by
    linarith [habs.1]
  have hz : (15 : ℤ) < roundHalfEven ((K_FACTOR : ℝ) * (1 - calculate_expected_score ra rb)) := by
    exact_mod_cast hr
  omega

/-- Witness for C9 (amended) at concrete ratings 800 < 1000. -/
theorem upset_win_gain_at_least_16_witness :
    okAndGE16 (calculate_rating_change 800 1000 1 K_FACTOR) :=
  upset_win_gain_at_least_16 800 1000 (by norm_num)

/-- Counterexample for C9 as stated: at adjacent ratings 999 < 1000 the
winner's change is exactly 16, not strictly greater than 16. -/
theorem upset_win_gain_not_strict :
    calculate_rating_change 999 1000 1 K_FACTOR = Except.ok 16 ∧ ¬((16 : ℤ) > 16) := by
  constructor
  · unfold calculate_rating_change
    rw [if_pos (by norm_num : (0:ℝ) ≤ 1 ∧ (1:ℝ) ≤ 1)]
    have hcast : (((1000 : Int) : ℝ) - ((999 : Int) : ℝ)) / 400 = 1 / 400 := by
      norm_num
    unfold calculate_expected_score
    rw [hcast, if_neg (by norm_num), if_neg (by norm_num)]
    set t : ℝ := (10 : ℝ) ^ ((1 : ℝ) / 400) with hT
    have ht400 : t ^ (400 : ℕ) = 10 := by
      rw [hT, ← Real.rpow_natCast ((10 : ℝ) ^ ((1 : ℝ) / 400)) 400,
        ← Real.rpow_mul (by norm_num : (0 : ℝ) ≤ 10)]
      norm_num
    have ht1 : (1 : ℝ) ≤ t := by
      rw [hT]; exact Real.one_le_rpow (by norm_num) (by norm_num)
    have htlt : t < 33 / 31 := by
      have hbern : (1 : ℝ) + 400 * (2 / 31) ≤ (1 + 2 / 31) ^ (400 : ℕ) :=
        one_add_mul_le_pow (by norm_num) 400
      have h10 : (10 : ℝ) < (33 / 31) ^ (400 : ℕ) := by
        have h3331 : ((33 : ℝ) / 31) = 1 + 2 / 31 := by norm_num
        rw [h3331]
        calc (10 : ℝ) < 1 + 400 * (2 / 31) := by norm_num
        _ ≤ (1 + 2 / 31) ^ (400 : ℕ) := hbern
      rw [← ht400] at h10
      exact lt_of_pow_lt_pow_left₀ 400 (by norm_num) h10
    have h1t : (0 : ℝ) < 1 + t := by linarith
    have hx1 : (16 : ℝ) ≤ (K_FACTOR : ℝ) * (1 - 1 / (1 + t)) := by
      have hhalf : 1 / (1 + t) ≤ 1 / 2 :=
        one_div_le_one_div_of_le (by norm_num) (by linarith)
      have hK : (K_FACTOR : ℝ) = 32 := by norm_num [K_FACTOR]
      rw [hK]; linarith
    have hx2 : (K_FACTOR : ℝ) * (1 - 1 / (1 + t)) < 16 + 1 / 2 := by
      have hfrac : (15 + 1 / 2 : ℝ) < 32 / (1 + t) := by
        rw [lt_div_iff₀ h1t]
        nlinarith
      have hK : (K_FACTOR : ℝ) = 32 := by norm_num [K_FACTOR]
      rw [hK]
      have : 32 * (1 / (1 + t)) = 32 / (1 + t) := by ring
      nlinarith
    set x : ℝ := (K_FACTOR : ℝ) * (1 - 1 / (1 + t)) with hX
    have hfl : ⌊x⌋ = 16 := by
      rw [Int.floor_eq_iff]
      constructor
      · exact_mod_cast hx1
      · push_cast; linarith
    have hfr : Int.fract x ≠ 1 / 2 := by
      rw [← Int.self_sub_floor, hfl]
      intro hcon
      push_cast at hcon
      linarith
    unfold roundHalfEven
    rw [if_neg hfr, round_eq]
    congr 1
    rw [Int.floor_eq_iff]
    constructor
    · push_cast; linarith
    · push_cast; linarith
  · norm_num
